import Mathlib

/-!
Verification of the navigation-and-form state model of a single-page
health-consulting site (source: `src/App.tsx`).

The meaningful behavior lives in two places:

* the hash-navigation effect in `App` (lines 12-33): a `hash` state
  initialised from `window.location.hash`, a `hashchange` listener that
  stores `window.location.hash || "#home"`, and an effect that looks the
  stored hash up in the map `{#home, #about, #contact}` and scrolls the
  matching section into view (no action when the lookup misses);

* the `ContactForm` component (lines 265-340): field state
  `{name, email, org, message}`, a status in `idle | sending | success |
  error`, the validator `emailOk = /.+@.+\..+/.test(email)`, the guard
  `canSubmit = name && emailOk && message && status !== "sending"`, and the
  `onSubmit` handler that sets `sending`, awaits the mock submission, and
  on success sets `success` and clears the fields, on a fault sets `error`.

Each definition below mirrors one of those pieces.
-/

namespace Paneo

/-! ## The email regex

`emailOk` in the source is `/.+@.+\..+/.test(state.email)`: an unanchored
JavaScript regex test.  We embed the pattern as a list of atoms
(`anyPlus` for `.+`, `lit c` for a literal character) together with a
backtracking matcher with the same semantics: `.` matches any character
except the JavaScript line terminators, `+` is one-or-more, and `test`
succeeds iff the pattern matches starting at some position of the string.
-/

/-- A character matched by the regex metacharacter `.` in JavaScript:
anything except the line terminators `\n`, `\r`, U+2028, U+2029. -/
def isDotChar (c : Char) : Bool :=
  !(c == '\n') && !(c == '\r') && !(c == Char.ofNat 0x2028) &&
    !(c == Char.ofNat 0x2029)

/-- Atoms of the embedded regular expression: a literal character, or `.+`. -/
inductive Pat where
  | lit : Char → Pat
  | anyPlus : Pat
deriving DecidableEq

/-- Does the pattern list match some prefix of `l` (the rest of the string
may continue after the match, as in an unanchored regex)? -/
def patMatchPre (ps : List Pat) (l : List Char) : Bool :=
  match l, ps with
  | _, [] => true
  | [], _ :: _ => false
  | d :: ds, Pat.lit c :: ps' => d == c && patMatchPre ps' ds
  | d :: ds, Pat.anyPlus :: ps' =>
      isDotChar d && (patMatchPre ps' ds || patMatchPre (Pat.anyPlus :: ps') ds)

/-- JavaScript `RegExp.test`: the pattern matches starting at some
position of the string. -/
def patTest (ps : List Pat) : List Char → Bool
  | [] => patMatchPre ps []
  | d :: ds => patMatchPre ps (d :: ds) || patTest ps ds

/-- The pattern `/.+@.+\..+/` of the source. -/
def emailPat : List Pat :=
  [Pat.anyPlus, Pat.lit '@', Pat.anyPlus, Pat.lit '.', Pat.anyPlus]

/-- `emailOk` (App.tsx line 268): `/.+@.+\..+/.test(email)`. -/
def emailOk (email : String) : Bool :=
  patTest emailPat email.data

/-! ## Contact-form state -/

/-- The field state of `ContactForm` (line 266). -/
structure FormState where
  name : String
  email : String
  org : String
  message : String
deriving DecidableEq

/-- The submission status of `ContactForm` (line 267). -/
inductive Status where
  | idle
  | sending
  | success
  | error
deriving DecidableEq

/-- The whole state owned by `ContactForm`: the fields and the status. -/
structure ContactForm where
  state : FormState
  status : Status
deriving DecidableEq

/-- The initial (and post-success) field state: all fields empty. -/
def emptyFields : FormState :=
  { name := "", email := "", org := "", message := "" }

/-- `canSubmit` (line 269): `state.name && emailOk && state.message &&
status !== "sending"`, read as the truthiness of that JavaScript value
(a string is truthy iff non-empty). -/
def canSubmit (s : FormState) (st : Status) : Bool :=
  decide (s.name ≠ "") && emailOk s.email && decide (s.message ≠ "") &&
    decide (st ≠ Status.sending)

/-- Outcome of the awaited submission operation: it resolves, or raises a
fault caught by the `catch` block. -/
inductive SubmitOutcome where
  | ok
  | fault
deriving DecidableEq

/-- The first half of `onSubmit` (lines 273-274): if the guard fails the
handler returns with the state untouched, otherwise status becomes
`sending`. -/
def submitStart (c : ContactForm) : ContactForm :=
  if canSubmit c.state c.status then { c with status := Status.sending } else c

/-- The continuation of `onSubmit` after the awaited operation settles
(lines 277-283): on success `setStatus("success")` then `setState` with
all fields empty; on a fault only `setStatus("error")`. -/
def submitResolve (o : SubmitOutcome) (c : ContactForm) : ContactForm :=
  match o with
  | SubmitOutcome.ok => { state := emptyFields, status := Status.success }
  | SubmitOutcome.fault => { c with status := Status.error }

/-- The whole `onSubmit` handler run to completion, paired with whether the
external submission operation was invoked at all. -/
def onSubmit (o : SubmitOutcome) (c : ContactForm) : ContactForm × Bool :=
  if canSubmit c.state c.status then
    (submitResolve o { c with status := Status.sending }, true)
  else (c, false)

/-! ## Field setters

Each input's `onChange` handler is `setState({ ...state, field: value })`
(lines 293, 301, 314, 322): it rewrites one field and leaves the rest and
the status alone. -/

/-- `onChange` of the Name input (line 293). -/
def setName (v : String) (c : ContactForm) : ContactForm :=
  { c with state := { c.state with name := v } }

/-- `onChange` of the Email input (line 301). -/
def setEmail (v : String) (c : ContactForm) : ContactForm :=
  { c with state := { c.state with email := v } }

/-- `onChange` of the Organization input (line 314). -/
def setOrg (v : String) (c : ContactForm) : ContactForm :=
  { c with state := { c.state with org := v } }

/-- `onChange` of the message textarea (line 322). -/
def setMessage (v : String) (c : ContactForm) : ContactForm :=
  { c with state := { c.state with message := v } }

/-- Which of the four fields an edit targets. -/
inductive FieldId where
  | name
  | email
  | org
  | message
deriving DecidableEq

/-- Dispatch an edit to the corresponding setter. -/
def setField (f : FieldId) (v : String) (c : ContactForm) : ContactForm :=
  match f with
  | FieldId.name => setName v c
  | FieldId.email => setEmail v c
  | FieldId.org => setOrg v c
  | FieldId.message => setMessage v c

/-! ## Event model

To talk about sequences of user actions we wrap the form state in a small
event system.  `pending` records whether a mock submission is in flight
(the promise created on line 277); its continuation (`complete`) can only
fire when such a promise exists. -/

/-- The form state together with the in-flight-submission flag. -/
structure Sys where
  form : ContactForm
  pending : Bool
deriving DecidableEq

/-- Events: a keystroke in one field, a submit action, or the settling of
the in-flight submission. -/
inductive Event where
  | edit : FieldId → String → Event
  | submit : Event
  | complete : SubmitOutcome → Event
deriving DecidableEq

/-- One step of the system.  `submit` mirrors lines 272-277 (guard, set
`sending`, start the mock operation); `complete` mirrors lines 277-283 and
is a no-op when no submission is in flight. -/
def stepEv (s : Sys) (e : Event) : Sys :=
  match e with
  | Event.edit f v => { s with form := setField f v s.form }
  | Event.submit =>
      if canSubmit s.form.state s.form.status then
        { form := { s.form with status := Status.sending }, pending := true }
      else s
  | Event.complete o =>
      if s.pending then { form := submitResolve o s.form, pending := false }
      else s

/-- Run a sequence of events. -/
def runEvents (s : Sys) (es : List Event) : Sys :=
  es.foldl stepEv s

/-- The state of a freshly mounted form: empty fields, `idle`, nothing in
flight. -/
def initSys : Sys :=
  { form := { state := emptyFields, status := Status.idle }, pending := false }

/-- A state the form can actually be in: reachable from the initial state
by some event sequence. -/
def Reachable (s : Sys) : Prop :=
  ∃ es : List Event, runEvents initSys es = s

/-- Is an event a field edit? -/
def isEdit : Event → Bool
  | Event.edit _ _ => true
  | Event.submit => false
  | Event.complete _ => false

/-! ## Hash navigation -/

/-- The three known sections of the page. -/
inductive Section where
  | home
  | about
  | contact
deriving DecidableEq

/-- The lookup `map[hash]` of lines 24-29: which section a stored hash
value scrolls to, `none` when the hash is not one of the three keys. -/
def sectionFor (h : String) : Option Section :=
  if h = "#home" then some Section.home
  else if h = "#about" then some Section.about
  else if h = "#contact" then some Section.contact
  else none

/-- How many scroll requests the effect of lines 23-33 issues for a stored
hash value: one when the lookup hits, zero otherwise. -/
def scrollCount (h : String) : Nat :=
  match sectionFor h with
  | some _ => 1
  | none => 0

/-- The value stored by the `hashchange` listener (line 18):
`window.location.hash || "#home"`, so the empty string defaults to
`"#home"`. -/
def onHashChange (raw : String) : String :=
  if raw = "" then "#home" else raw

/-- The value stored at mount (line 12): `window.location.hash` verbatim,
with no defaulting. -/
def initialHash (raw : String) : String :=
  raw

/-- Scroll requests issued for the mount-time fragment. -/
def startupScrollCount (raw : String) : Nat :=
  scrollCount (initialHash raw)

/-- Processing one `hashchange` notification for fragment `raw` over the
currently stored hash.  The listener (line 18) stores
`window.location.hash || "#home"`; because the scroll effect has the
dependency list `[hash]` (line 33), it re-runs — and scrolls — only when
the stored value actually changes (storing an equal value is a React
bail-out: no re-render, no effect run).  Returns the new stored hash and
the number of scroll requests issued by this notification. -/
def notifyStep (stored raw : String) : String × Nat :=
  if onHashChange raw = stored then (stored, 0)
  else (onHashChange raw, scrollCount (onHashChange raw))

/-- Is a stored hash value a member of the known set? -/
def isKnown (h : String) : Bool :=
  (sectionFor h).isSome

/-- A concrete eligible form state, as in the spec's example. -/
def janeForm : ContactForm :=
  { state := { name := "Jane Doe", email := "jane@hospital.org", org := "",
               message := "Need help" },
    status := Status.idle }

/-- The shape actually recognised by `/.+@.+\..+/.test`: the string contains,
somewhere inside it, a non-empty run of non-line-terminator characters, an
`@`, another such run, a `.`, and a third such run. -/
def EmailShape (l : List Char) : Prop :=
  ∃ pre p1 p2 p3 post : List Char,
    l = pre ++ p1 ++ '@' :: (p2 ++ '.' :: (p3 ++ post)) ∧
    p1 ≠ [] ∧ (∀ c ∈ p1, isDotChar c = true) ∧
    p2 ≠ [] ∧ (∀ c ∈ p2, isDotChar c = true) ∧
    p3 ≠ [] ∧ (∀ c ∈ p3, isDotChar c = true)

end Paneo

namespace Paneo

/-! ## Lemmas about the matcher -/

theorem patMatchPre_nil_pat (l : List Char) : patMatchPre [] l = true := by
  cases l <;> rfl

theorem patMatchPre_lit (c : Char) (ps : List Pat) (l : List Char) :
    patMatchPre (Pat.lit c :: ps) l = true ↔
      ∃ rest, l = c :: rest ∧ patMatchPre ps rest = true := by
  cases l with
  | nil => simp [patMatchPre]
  | cons d ds =>
      simp only [patMatchPre, Bool.and_eq_true, beq_iff_eq]
      constructor
      · rintro ⟨rfl, hp⟩
        exact ⟨ds, rfl, hp⟩
      · rintro ⟨rest, heq, hp⟩
        cases heq
        exact ⟨rfl, hp⟩

theorem patMatchPre_anyPlus (ps : List Pat) (l : List Char) :
    patMatchPre (Pat.anyPlus :: ps) l = true ↔
      ∃ a rest, l = a ++ rest ∧ a ≠ [] ∧ (∀ c ∈ a, isDotChar c = true) ∧
        patMatchPre ps rest = true := by
  induction l with
  | nil =>
      simp only [patMatchPre]
      constructor
      · intro hfalse
        cases hfalse
      · rintro ⟨a, rest, heq, hne, -, -⟩
        rcases List.append_eq_nil.mp heq.symm with ⟨rfl, -⟩
        exact absurd rfl hne
  | cons d ds ih =>
      simp only [patMatchPre, Bool.and_eq_true, Bool.or_eq_true]
      constructor
      · rintro ⟨hd, hrec | hrec⟩
        · exact ⟨[d], ds, rfl, by simp, by simpa using hd, hrec⟩
        · obtain ⟨a, rest, heq, hne, hall, hp⟩ := ih.mp hrec
          refine ⟨d :: a, rest, by simp [heq], by simp, ?_, hp⟩
          intro c hc
          rcases List.mem_cons.mp hc with rfl | hc
          · exact hd
          · exact hall c hc
      · rintro ⟨a, rest, heq, hne, hall, hp⟩
        cases a with
        | nil => exact absurd rfl hne
        | cons x a' =>
            rw [List.cons_append] at heq
            injection heq with h1 h2
            subst h1
            subst h2
            refine ⟨hall d (List.mem_cons_self d a'), ?_⟩
            cases a' with
            | nil => exact Or.inl (by simpa using hp)
            | cons y a'' =>
                refine Or.inr (ih.mpr ⟨y :: a'', rest, rfl, by simp, ?_, hp⟩)
                intro c hc
                exact hall c (List.mem_cons_of_mem d hc)

theorem patTest_iff (ps : List Pat) (l : List Char) :
    patTest ps l = true ↔
      ∃ pre suf, l = pre ++ suf ∧ patMatchPre ps suf = true := by
  induction l with
  | nil =>
      simp only [patTest]
      constructor
      · intro hp
        exact ⟨[], [], rfl, hp⟩
      · rintro ⟨pre, suf, heq, hp⟩
        rcases List.append_eq_nil.mp heq.symm with ⟨rfl, rfl⟩
        exact hp
  | cons d ds ih =>
      simp only [patTest, Bool.or_eq_true]
      constructor
      · rintro (hp | hp)
        · exact ⟨[], d :: ds, rfl, hp⟩
        · obtain ⟨pre, suf, heq, hp⟩ := ih.mp hp
          exact ⟨d :: pre, suf, by simp [heq], hp⟩
      · rintro ⟨pre, suf, heq, hp⟩
        cases pre with
        | nil =>
            simp only [List.nil_append] at heq
            subst heq
            exact Or.inl hp
        | cons x pre' =>
            rw [List.cons_append] at heq
            injection heq with h1 h2
            subst h1
            subst h2
            exact Or.inr (ih.mpr ⟨pre', suf, rfl, hp⟩)

/-- What the source's email test recognises, in closed form. -/
theorem emailOk_iff (s : String) : emailOk s = true ↔ EmailShape s.data := by
  unfold emailOk emailPat EmailShape
  rw [patTest_iff]
  constructor
  · rintro ⟨pre, suf, heq, hm⟩
    rw [patMatchPre_anyPlus] at hm
    obtain ⟨p1, r1, rfl, h1ne, h1all, hm⟩ := hm
    rw [patMatchPre_lit] at hm
    obtain ⟨r2, rfl, hm⟩ := hm
    rw [patMatchPre_anyPlus] at hm
    obtain ⟨p2, r3, rfl, h2ne, h2all, hm⟩ := hm
    rw [patMatchPre_lit] at hm
    obtain ⟨r4, rfl, hm⟩ := hm
    rw [patMatchPre_anyPlus] at hm
    obtain ⟨p3, post, rfl, h3ne, h3all, -⟩ := hm
    refine ⟨pre, p1, p2, p3, post, ?_, h1ne, h1all, h2ne, h2all, h3ne, h3all⟩
    rw [heq, List.append_assoc]
  · rintro ⟨pre, p1, p2, p3, post, heq, h1ne, h1all, h2ne, h2all, h3ne, h3all⟩
    refine ⟨pre, p1 ++ '@' :: (p2 ++ '.' :: (p3 ++ post)), ?_, ?_⟩
    · rw [heq, List.append_assoc]
    · rw [patMatchPre_anyPlus]
      refine ⟨p1, '@' :: (p2 ++ '.' :: (p3 ++ post)), rfl, h1ne, h1all, ?_⟩
      rw [patMatchPre_lit]
      refine ⟨p2 ++ '.' :: (p3 ++ post), rfl, ?_⟩
      rw [patMatchPre_anyPlus]
      refine ⟨p2, '.' :: (p3 ++ post), rfl, h2ne, h2all, ?_⟩
      rw [patMatchPre_lit]
      refine ⟨p3 ++ post, rfl, ?_⟩
      rw [patMatchPre_anyPlus]
      exact ⟨p3, post, rfl, h3ne, h3all, patMatchPre_nil_pat post⟩

/-- C1: `canSubmit` is false exactly when the name is empty, or the message
is empty, or the email fails the shape check, or the status is `sending`;
and the organization field plays no role in it. -/
theorem C1_canSubmit_characterization (s : FormState) (st : Status) (v : String) :
    (canSubmit s st = false ↔
      (s.name = "" ∨ s.message = "" ∨ emailOk s.email = false ∨
        st = Status.sending)) ∧
    canSubmit { s with org := v } st = canSubmit s st := by
  constructor
  · unfold canSubmit
    cases hmail : emailOk s.email <;> simp [hmail]
    tauto
  · rfl

/-- C2-counterexample: the claim says the validator accepts `"a@.c"`, but the
code's regex rejects it: after the `@` the `.+` needs at least one character
before the literal dot, and `"a@.c"` has none. -/
theorem C2_counterexample : emailOk "a@.c" = false := by decide

/-- C2 (amended): the validator accepts a string iff it contains, anywhere
inside it, one or more non-line-terminator characters, then `@`, then one or
more characters, then `.`, then one or more characters (the test is
unanchored and the runs may contain dots and at-signs); in particular
`"a@b.c"` is accepted, `"a@b"` is rejected, `"abc"` is rejected, and
`"a@.c"` is rejected. -/
theorem C2_email_shape :
    (∀ s : String, emailOk s = true ↔ EmailShape s.data) ∧
    emailOk "a@b.c" = true ∧ emailOk "a@b" = false ∧ emailOk "abc" = false ∧
    emailOk "a@.c" = false :=
  ⟨emailOk_iff, by decide, by decide, by decide, by decide⟩

/-- C3: from an eligible form state with status `idle`, submit first sets
status to `sending`, and when the mock operation completes without fault the
status becomes `success` and all four fields are cleared to empty. -/
theorem C3_submit_success (c : ContactForm)
    (h : canSubmit c.state c.status = true) (h0 : c.status = Status.idle) :
    c.status = Status.idle ∧
    (submitStart c).status = Status.sending ∧
    submitResolve SubmitOutcome.ok (submitStart c) =
      { state := emptyFields, status := Status.success } := by
  refine ⟨h0, ?_, rfl⟩
  simp [submitStart, h]

/-- C3-witness: the spec's concrete example (Jane Doe) run through
`C3_submit_success`. -/
theorem C3_witness :
    janeForm.status = Status.idle ∧
    (submitStart janeForm).status = Status.sending ∧
    submitResolve SubmitOutcome.ok (submitStart janeForm) =
      { state := emptyFields, status := Status.success } :=
  C3_submit_success janeForm (by decide) rfl

/-- C4: from an eligible form state with status `idle`, submit sets status to
`sending`, and when the mock operation raises a fault the status becomes
`error` while all four fields keep their pre-submit values. -/
theorem C4_submit_fault (c : ContactForm)
    (h : canSubmit c.state c.status = true) (h0 : c.status = Status.idle) :
    c.status = Status.idle ∧
    (submitStart c).status = Status.sending ∧
    (submitResolve SubmitOutcome.fault (submitStart c)).status = Status.error ∧
    (submitResolve SubmitOutcome.fault (submitStart c)).state = c.state := by
  refine ⟨h0, ?_, rfl, ?_⟩
  · simp [submitStart, h]
  · simp [submitStart, h, submitResolve]

/-- C4-witness: the same concrete example with a forced fault. -/
theorem C4_witness :
    janeForm.status = Status.idle ∧
    (submitStart janeForm).status = Status.sending ∧
    (submitResolve SubmitOutcome.fault (submitStart janeForm)).status =
      Status.error ∧
    (submitResolve SubmitOutcome.fault (submitStart janeForm)).state =
      janeForm.state :=
  C4_submit_fault janeForm (by decide) rfl

/-- C5: when the guard is false — in particular whenever the status is
`sending` — the submit handler leaves the whole state unchanged and the
external submission operation is not invoked. -/
theorem C5_ineligible_submit_noop (o : SubmitOutcome) (c : ContactForm) :
    (canSubmit c.state c.status = false → onSubmit o c = (c, false)) ∧
    (c.status = Status.sending → onSubmit o c = (c, false)) := by
  constructor
  · intro h
    simp [onSubmit, h]
  · intro h
    have hc : canSubmit c.state c.status = false := by
      simp [canSubmit, h]
    simp [onSubmit, hc]

/-- C5-witness: submitting the filled-in form while it is already `sending`
does nothing and does not invoke the operation. -/
theorem C5_witness :
    onSubmit SubmitOutcome.ok
        { state := janeForm.state, status := Status.sending } =
      ({ state := janeForm.state, status := Status.sending }, false) :=
  (C5_ineligible_submit_noop SubmitOutcome.ok
    { state := janeForm.state, status := Status.sending }).2 rfl

/-- C6-counterexample: the claim says the empty fragment issues one scroll
request "including once at startup"; but the mount-time read stores
`window.location.hash` verbatim with no defaulting, the lookup of `""`
misses, and zero scroll requests are issued. -/
theorem C6_counterexample : startupScrollCount "" = 0 := by decide

/-- C6 (amended): `#home`, `#about`, `#contact` each resolve to a known
section and issue exactly one scroll request at startup; on a change
notification they issue one scroll request when the resolved value differs
from the currently stored hash and zero when it is the same — the scroll
effect depends on the stored hash, and storing an unchanged value skips it.
The empty fragment resolves to home: a change notification for it issues
one scroll request when the stored hash is not already `"#home"` and zero
when it is, while at startup it issues zero because the mount-time read
does not apply the empty-to-home default.  Every other fragment issues
zero scroll requests, at startup and on any notification. -/
theorem C6_scroll_requests (stored raw : String) :
    ((raw = "#home" ∨ raw = "#about" ∨ raw = "#contact") →
      startupScrollCount raw = 1 ∧
      (raw ≠ stored → (notifyStep stored raw).2 = 1) ∧
      (raw = stored → (notifyStep stored raw).2 = 0)) ∧
    startupScrollCount "" = 0 ∧
    (stored ≠ "#home" → (notifyStep stored "").2 = 1) ∧
    (notifyStep "#home" "").2 = 0 ∧
    (raw ≠ "" → raw ≠ "#home" → raw ≠ "#about" → raw ≠ "#contact" →
      startupScrollCount raw = 0 ∧ (notifyStep stored raw).2 = 0) := by
  refine ⟨?_, by decide, ?_, by decide, ?_⟩
  · have hcase : ∀ known : String, onHashChange known = known →
        scrollCount known = 1 →
        (known ≠ stored → (notifyStep stored known).2 = 1) ∧
        (known = stored → (notifyStep stored known).2 = 0) := by
      intro known hoh hsc
      constructor
      · intro hne
        unfold notifyStep
        rw [hoh, if_neg hne, hsc]
      · intro heq
        unfold notifyStep
        rw [hoh, if_pos heq]
    rintro (rfl | rfl | rfl)
    · exact ⟨by decide, hcase "#home" (by decide) (by decide)⟩
    · exact ⟨by decide, hcase "#about" (by decide) (by decide)⟩
    · exact ⟨by decide, hcase "#contact" (by decide) (by decide)⟩
  · intro hs
    unfold notifyStep
    rw [show onHashChange "" = "#home" from by decide,
      if_neg (fun h => hs h.symm)]
    decide
  · intro h0 h1 h2 h3
    refine ⟨by simp [startupScrollCount, initialHash, scrollCount,
      sectionFor, h1, h2, h3], ?_⟩
    unfold notifyStep
    rw [show onHashChange raw = raw from by rw [onHashChange, if_neg h0]]
    by_cases hrs : raw = stored
    · rw [if_pos hrs]
    · rw [if_neg hrs]
      simp [scrollCount, sectionFor, h1, h2, h3]

/-- C6-witness: `C6_scroll_requests` at concrete stored hashes and
fragments — a known fragment that changes the stored hash, the same known
fragment arriving again, the empty fragment over a non-home and over the
home stored hash, and an unknown fragment. -/
theorem C6_witness :
    startupScrollCount "#about" = 1 ∧
    (notifyStep "#home" "#about").2 = 1 ∧
    (notifyStep "#about" "#about").2 = 0 ∧
    (notifyStep "#about" "").2 = 1 ∧
    (notifyStep "#home" "").2 = 0 ∧
    (startupScrollCount "#other" = 0 ∧ (notifyStep "#home" "#other").2 = 0) :=
  ⟨((C6_scroll_requests "#home" "#about").1 (Or.inr (Or.inl rfl))).1,
   ((C6_scroll_requests "#home" "#about").1 (Or.inr (Or.inl rfl))).2.1
     (by decide),
   ((C6_scroll_requests "#about" "#about").1 (Or.inr (Or.inl rfl))).2.2 rfl,
   (C6_scroll_requests "#about" "").2.2.1 (by decide),
   (C6_scroll_requests "#home" "").2.2.2.1,
   (C6_scroll_requests "#home" "#other").2.2.2.2 (by decide) (by decide)
     (by decide) (by decide)⟩

/-- C7-counterexample: the claim says the stored fragment is always a member
of the known set, but a `hashchange` notification for `"#foo"` stores
`"#foo"`, which is outside it. -/
theorem C7_counterexample : isKnown (onHashChange "#foo") = false := by decide

/-- C7 (amended): the stored fragment is not constrained to the known set
(a notification for `"#foo"` stores a value outside it); what holds is that
unrecognized fragments are ignored — they resolve to no section and issue
zero scroll requests, with resolution a total function (no crash) — and the
empty fragment on a change notification defaults to home. -/
theorem C7_unknown_ignored :
    isKnown (onHashChange "#foo") = false ∧
    (∀ h : String, isKnown h = false → sectionFor h = none ∧
      scrollCount h = 0) ∧
    onHashChange "" = "#home" := by
  refine ⟨by decide, ?_, rfl⟩
  intro h hk
  have hnone : sectionFor h = none := by
    cases hs : sectionFor h with
    | none => rfl
    | some sec =>
        unfold isKnown at hk
        rw [hs] at hk
        simp at hk
  exact ⟨hnone, by simp [scrollCount, hnone]⟩

/-- C7-witness: `C7_unknown_ignored` applied to the unknown fragment
`"#xyz"`. -/
theorem C7_witness : sectionFor "#xyz" = none ∧ scrollCount "#xyz" = 0 :=
  C7_unknown_ignored.2.1 "#xyz" (by decide)

/-! ## Lemmas for the event system -/

theorem setField_status (f : FieldId) (v : String) (c : ContactForm) :
    (setField f v c).status = c.status := by
  cases f <;> rfl

theorem canSubmit_status_ne_sending {s : FormState} {st : Status}
    (h : canSubmit s st = true) : st ≠ Status.sending := by
  simp only [canSubmit, Bool.and_eq_true, decide_eq_true_eq] at h
  exact h.2

/-- The in-flight flag can only be set while the status is `sending`. -/
def Inv (s : Sys) : Prop :=
  s.pending = true → s.form.status = Status.sending

theorem inv_step (s : Sys) (e : Event) (h : Inv s) : Inv (stepEv s e) := by
  cases e with
  | edit f v =>
      intro hp
      simp only [stepEv] at hp ⊢
      rw [setField_status]
      exact h hp
  | submit =>
      by_cases hc : canSubmit s.form.state s.form.status = true
      · intro _
        simp [stepEv, hc]
      · intro hp
        simp only [stepEv, if_neg hc] at hp ⊢
        exact h hp
  | complete o =>
      by_cases hp : s.pending = true
      · intro hp'
        simp only [stepEv, if_pos hp] at hp'
        simp at hp'
      · intro hp'
        simp only [stepEv, if_neg hp] at hp' ⊢
        exact h hp'

theorem inv_run (es : List Event) (s : Sys) (h : Inv s) :
    Inv (runEvents s es) := by
  induction es generalizing s with
  | nil => exact h
  | cons e es ih => exact ih (stepEv s e) (inv_step s e h)

theorem reachable_inv (s : Sys) (h : Reachable s) : Inv s := by
  obtain ⟨es, rfl⟩ := h
  refine inv_run es initSys ?_
  intro hp
  simp [initSys] at hp

/-- Field edits never touch the in-flight flag. -/
theorem pending_preserved_by_edits (es : List Event)
    (h : ∀ e ∈ es, isEdit e = true) (s : Sys) :
    (runEvents s es).pending = s.pending := by
  induction es generalizing s with
  | nil => rfl
  | cons e es ih =>
      have he : isEdit e = true := h e (List.mem_cons_self e es)
      have hrest : ∀ e' ∈ es, isEdit e' = true := fun e' h' =>
        h e' (List.mem_cons_of_mem _ h')
      cases e with
      | edit f v =>
          rw [show runEvents s (Event.edit f v :: es) =
            runEvents (stepEv s (Event.edit f v)) es from rfl]
          rw [ih hrest]
          rfl
      | submit => simp [isEdit] at he
      | complete o => simp [isEdit] at he

/-- C8: in any reachable state, a step either leaves the status unchanged,
or is a submit action moving a non-`sending` status to `sending`, or is the
settling of the in-flight submission moving `sending` to `success` or
`error`; in particular `success` and `error` are never left except by a
fresh submit that starts again at `sending`. -/
theorem C8_status_transitions (s : Sys) (hr : Reachable s) (e : Event) :
    (stepEv s e).form.status = s.form.status ∨
    (e = Event.submit ∧ s.form.status ≠ Status.sending ∧
      (stepEv s e).form.status = Status.sending) ∨
    ((∃ o, e = Event.complete o) ∧ s.form.status = Status.sending ∧
      ((stepEv s e).form.status = Status.success ∨
        (stepEv s e).form.status = Status.error)) := by
  have hinv := reachable_inv s hr
  cases e with
  | edit f v =>
      left
      simp only [stepEv]
      exact setField_status f v s.form
  | submit =>
      by_cases hc : canSubmit s.form.state s.form.status = true
      · right; left
        refine ⟨rfl, canSubmit_status_ne_sending hc, ?_⟩
        simp [stepEv, hc]
      · left
        simp [stepEv, hc]
  | complete o =>
      by_cases hp : s.pending = true
      · right; right
        refine ⟨⟨o, rfl⟩, hinv hp, ?_⟩
        cases o with
        | ok => exact Or.inl (by simp [stepEv, hp, submitResolve])
        | fault => exact Or.inr (by simp [stepEv, hp, submitResolve])
      · left
        simp [stepEv, hp]

/-- C8-witness: `C8_status_transitions` at the freshly mounted state (which
is reachable by the empty event sequence) under a submit action. -/
theorem C8_witness :
    (stepEv initSys Event.submit).form.status = initSys.form.status ∨
    (Event.submit = Event.submit ∧ initSys.form.status ≠ Status.sending ∧
      (stepEv initSys Event.submit).form.status = Status.sending) ∨
    ((∃ o, Event.submit = Event.complete o) ∧
      initSys.form.status = Status.sending ∧
      ((stepEv initSys Event.submit).form.status = Status.success ∨
        (stepEv initSys Event.submit).form.status = Status.error)) :=
  C8_status_transitions initSys ⟨[], rfl⟩ Event.submit

/-- C9: each field setter rewrites exactly its own field, leaving the other
three fields and the status untouched, and the eligibility of the resulting
state is just `canSubmit` re-applied to the current field values with the
unchanged status. -/
theorem C9_field_edit_frame (c : ContactForm) (v : String) :
    ((setName v c).state.name = v ∧ (setName v c).state.email = c.state.email ∧
      (setName v c).state.org = c.state.org ∧
      (setName v c).state.message = c.state.message ∧
      (setName v c).status = c.status) ∧
    ((setEmail v c).state.email = v ∧ (setEmail v c).state.name = c.state.name ∧
      (setEmail v c).state.org = c.state.org ∧
      (setEmail v c).state.message = c.state.message ∧
      (setEmail v c).status = c.status) ∧
    ((setOrg v c).state.org = v ∧ (setOrg v c).state.name = c.state.name ∧
      (setOrg v c).state.email = c.state.email ∧
      (setOrg v c).state.message = c.state.message ∧
      (setOrg v c).status = c.status) ∧
    ((setMessage v c).state.message = v ∧
      (setMessage v c).state.name = c.state.name ∧
      (setMessage v c).state.email = c.state.email ∧
      (setMessage v c).state.org = c.state.org ∧
      (setMessage v c).status = c.status) ∧
    (∀ f : FieldId,
      canSubmit (setField f v c).state (setField f v c).status =
        canSubmit (setField f v c).state c.status) := by
  refine ⟨⟨rfl, rfl, rfl, rfl, rfl⟩, ⟨rfl, rfl, rfl, rfl, rfl⟩,
    ⟨rfl, rfl, rfl, rfl, rfl⟩, ⟨rfl, rfl, rfl, rfl, rfl⟩, ?_⟩
  intro f
  rw [setField_status]

/-- C10: starting a submission from an eligible state and letting it resolve
successfully clears all four fields unconditionally, whatever field edits
happened while the submission was in flight — the values typed during the
`sending` window are discarded. -/
theorem C10_edits_discarded (s : Sys) (edits : List Event)
    (h : canSubmit s.form.state s.form.status = true)
    (he : ∀ e ∈ edits, isEdit e = true) :
    (stepEv (runEvents (stepEv s Event.submit) edits)
        (Event.complete SubmitOutcome.ok)).form =
      { state := emptyFields, status := Status.success } := by
  have h2 : (runEvents (stepEv s Event.submit) edits).pending = true := by
    rw [pending_preserved_by_edits edits he]
    simp [stepEv, h]
  have hstep : ∀ t : Sys, t.pending = true →
      (stepEv t (Event.complete SubmitOutcome.ok)).form =
        { state := emptyFields, status := Status.success } := by
    intro t ht
    simp [stepEv, ht, submitResolve]
  exact hstep _ h2

/-- C10-witness: the filled-in form is submitted, the message field is edited
while the submission is in flight, and the successful completion still wipes
every field. -/
theorem C10_witness :
    (stepEv (runEvents (stepEv { form := janeForm, pending := false }
          Event.submit)
        [Event.edit FieldId.message "changed my mind"])
        (Event.complete SubmitOutcome.ok)).form =
      { state := emptyFields, status := Status.success } :=
  C10_edits_discarded { form := janeForm, pending := false }
    [Event.edit FieldId.message "changed my mind"] (by decide) (by decide)

end Paneo
